import Mathlib

/-!
# `Cubes` (src/dynamic_cube.cpp): spawn schedule, render loop, buffer bookkeeping

Shallow embedding of the class `Cubes`.

* The object is a record of its data members; every member function is a pure
  function from the record (and the values the environment hands back during
  the call) to the new record, the return value and the list of renderer calls
  issued, in program order.
* `m_objCnt` is a `uint32_t`: a natural number, incremented modulo `2 ^ 32`.
* `time` (line 174) is a `float`, the quotient of a counter difference by the
  counter frequency, hence finite.  Every finite `float` is a rational number, so
  `time` ranges over `ℚ`; the comparison `time > m_objCnt` converts the count to
  `float`, which is exact below `2 ^ 24` and the comparison is only reached
  under the guard `m_objCnt < 121`.
* `mtx[12] = -15.0f + float(xx)*3.0f` and `mtx[13]` only involve integers of
  magnitude at most 30 for `xx, yy ≤ 10`, which `float` represents exactly, so
  they are computed in `ℚ`.
* `std::vector::operator[]` is read as `l[i]?`: `none` marks a read past the
  end (undefined in C++).
* `bx::mtxRotateXY`, `entry::processEvents`, `bgfx::getHMD`, the buffer
  creation functions and the HP counter belong to the libraries; what they
  return is an input of the call (`InitEnv`, `FrameInput`).
-/

namespace DynamicCube

/-- Renderer handle (`bgfx::*Handle`): a small integer issued by the renderer. -/
abbrev Handle := Nat

/-- Model matrix `float mtx[16]`, indexed as in the source. -/
abbrev Mtx := Fin 16 → ℚ

/-- Renderer calls issued by the member functions of `Cubes`. -/
inductive Call where
  | bgfxInit
  | bgfxReset (width height flags : Nat)
  | setDebug (debug : Nat)
  | setViewClear (view : Nat)
  | vertexDeclInit
  | loadProgram (ret : Handle)
  | destroyIndex (h : Option Handle)
  | destroyVertex (h : Option Handle)
  | destroyProgram (h : Handle)
  | bgfxShutdown
  | createIndex (ret : Handle)
  | createVertex (ret : Handle)
  | dbgTextClear
  | dbgTextPrintf (row : Nat)
  | setViewTransform (view : Nat)
  | setViewRect (view x y w h : Nat)
  | touch (view : Nat)
  | setTransform (mtx : Mtx)
  | setVertexBuffer (h : Option Handle)
  | setIndexBuffer (h : Option Handle)
  | setState
  | submit (view : Nat) (program : Handle)
  | frame

/-- Data members of `class Cubes` (lines 271-281). -/
structure Cubes where
  m_width : Nat
  m_height : Nat
  m_debug : Nat
  m_reset : Nat
  m_program : Handle
  m_timeOffset : Int
  m_dvbhVtr : List Handle
  m_dibhVtr : List Handle
  m_objCnt : Nat

/-- Values the libraries hand to `init`: the two bgfx flag constants, the handle
`loadProgram` returns and the value of `bx::getHPCounter()`. -/
structure InitEnv where
  BGFX_DEBUG_TEXT : Nat
  BGFX_RESET_VSYNC : Nat
  program : Handle
  hpCounter : Int

/-- Values the libraries hand to one `update` call.
`exit` is the result of `entry::processEvents`, `width` .. `reset` are what it
leaves in its four reference arguments; `hmd` is `some (w, h)` when
`NULL != hmd && 0 != (hmd->flags & BGFX_HMD_RENDERING)` with the HMD's size;
`time` is the local `time` of line 174; `mtxRotateXY xx yy` is the matrix
`bx::mtxRotateXY(mtx, time + xx*0.21f, time + yy*0.37f)` writes;
`newIdx`, `newVtx` are the handles `CREATE_INDEX`, `CREATE_VERTEX` return if
they are called. -/
structure FrameInput where
  exit : Bool
  width : Nat
  height : Nat
  debug : Nat
  reset : Nat
  hmd : Option (Nat × Nat)
  time : ℚ
  mtxRotateXY : Nat → Nat → Mtx
  newIdx : Handle
  newVtx : Handle

/-- State and renderer calls of a `void` member function. -/
structure Step where
  state : Cubes
  calls : List Call

/-- Outcome of `update`: new state, returned `bool`, renderer calls. -/
structure UpdateResult where
  state : Cubes
  ret : Bool
  calls : List Call

/-- Outcome of `shutdown`: new state, returned `int`, renderer calls. -/
structure ShutdownResult where
  state : Cubes
  ret : Int
  calls : List Call

/-- One pass through the body of the inner render loop that reaches
`bgfx::submit` (lines 239-256). -/
structure Draw where
  yy : Nat
  xx : Nat
  currIdx : Nat
  mtx : Mtx
  vb : Option Handle
  ib : Option Handle

/-- A freshly constructed `Cubes`: both vectors are default-constructed (empty);
the scalar members are uninitialised, hence arbitrary. -/
def Fresh (s : Cubes) : Prop :=
  s.m_dvbhVtr = [] ∧ s.m_dibhVtr = []

/-- `Cubes::init` (lines 96-126). -/
def init (env : InitEnv) (s : Cubes) : Step :=
  let s := { s with m_width := 1280 }
  let s := { s with m_height := 720 }
  let s := { s with m_debug := env.BGFX_DEBUG_TEXT }
  let s := { s with m_reset := env.BGFX_RESET_VSYNC }
  let s := { s with m_objCnt := 0 }
  let s := { s with m_program := env.program }
  let s := { s with m_timeOffset := env.hpCounter }
  { state := s
    calls := [Call.bgfxInit, Call.bgfxReset 1280 720 env.BGFX_RESET_VSYNC,
      Call.setDebug env.BGFX_DEBUG_TEXT, Call.setViewClear 0, Call.vertexDeclInit,
      Call.loadProgram env.program] }

/-- `Cubes::shutdown` (lines 128-144): the loop `for (int i = 0; i < m_objCnt; ++i)`
destroys `m_dibhVtr[i]` then `m_dvbhVtr[i]`; the vectors themselves are not
cleared.  The test `i < m_objCnt` converts `i` to unsigned; `i` runs through
`0 .. m_objCnt - 1` without leaving the range of `int` as long as
`m_objCnt ≤ 2 ^ 31`, which is the range this definition is meant for. -/
def shutdown (s : Cubes) : ShutdownResult :=
  { state := s
    ret := 0
    calls := (List.range s.m_objCnt).flatMap (fun i =>
        [Call.destroyIndex s.m_dibhVtr[i]?, Call.destroyVertex s.m_dvbhVtr[i]?])
      ++ [Call.destroyProgram s.m_program, Call.bgfxShutdown] }

/-- `Cubes::createCube` (lines 146-161); `_dibh`, `_dvbh` are the handles the
renderer returns. -/
def createCube (_dibh _dvbh : Handle) (s : Cubes) : Step :=
  let s := { s with m_dibhVtr := s.m_dibhVtr ++ [_dibh] }
  let s := { s with m_dvbhVtr := s.m_dvbhVtr ++ [_dvbh] }
  let s := { s with m_objCnt := (s.m_objCnt + 1) % 2 ^ 32 }
  { state := s, calls := [Call.createIndex _dibh, Call.createVertex _dvbh] }

/-- Body of the inner render loop after the `break` test (lines 239-256). -/
def drawCell (s : Cubes) (f : FrameInput) (yy xx : Nat) : Draw :=
  let _currIdx := yy * 11 + xx
  let mtx := f.mtxRotateXY xx yy
  let mtx := Function.update mtx 12 (-15 + (xx : ℚ) * 3)
  let mtx := Function.update mtx 13 (-15 + (yy : ℚ) * 3)
  let mtx := Function.update mtx 14 0
  { yy := yy, xx := xx, currIdx := _currIdx, mtx := mtx,
    vb := s.m_dvbhVtr[_currIdx]?, ib := s.m_dibhVtr[_currIdx]? }

/-- Renderer calls of one loop body (lines 246-256). -/
def Draw.calls (program : Handle) (d : Draw) : List Call :=
  [Call.setTransform d.mtx, Call.setVertexBuffer d.vb, Call.setIndexBuffer d.ib,
    Call.setState, Call.submit 0 program]

/-- Inner loop `for (xx = 0; xx < 11; ++xx)` (lines 233-257) over the values of `xx`
still to come; `break` ends this loop only. -/
def innerLoop (s : Cubes) (f : FrameInput) (yy : Nat) : List Nat → List Draw
  | [] => []
  | xx :: rest =>
    if yy * 11 + xx ≥ s.m_objCnt then []
    else drawCell s f yy xx :: innerLoop s f yy rest

/-- Render loop (lines 231-258): the outer loop runs all eleven rows. -/
def renderLoop (s : Cubes) (f : FrameInput) : List Draw :=
  (List.range 11).flatMap (fun yy => innerLoop s f yy (List.range 11))

/-- View set-up of `update` (lines 186-214). -/
def viewSetup (s : Cubes) (f : FrameInput) : List Call :=
  match f.hmd with
  | some (w, h) => [Call.setViewTransform 0, Call.setViewRect 0 0 0 w h]
  | none => [Call.setViewTransform 0, Call.setViewRect 0 0 0 s.m_width s.m_height]

/-- Spawn step of `update` (lines 220-229). -/
def spawnStep (s : Cubes) (f : FrameInput) : Step :=
  if s.m_objCnt < 121 then
    if f.time > (s.m_objCnt : ℚ) then createCube f.newIdx f.newVtx s
    else { state := s, calls := [] }
  else { state := s, calls := [] }

/-- What `entry::processEvents(m_width, m_height, m_debug, m_reset)` does to the
object: its four reference arguments take the values the event source leaves. -/
def processEvents (s : Cubes) (f : FrameInput) : Cubes :=
  { s with m_width := f.width, m_height := f.height, m_debug := f.debug, m_reset := f.reset }

/-- `Cubes::update` (lines 163-269).  The diagnostic frame time (`last`,
`frameTime`, `toMs`) only feeds the debug text and is left out. -/
def update (s : Cubes) (f : FrameInput) : UpdateResult :=
  let s := processEvents s f
  if !f.exit then
    let pre := [Call.dbgTextClear, Call.dbgTextPrintf 1, Call.dbgTextPrintf 2,
      Call.dbgTextPrintf 3] ++ viewSetup s f ++ [Call.touch 0]
    let sp := spawnStep s f
    let draws := renderLoop sp.state f
    { state := sp.state
      ret := true
      calls := pre ++ sp.calls ++ draws.flatMap (Draw.calls sp.state.m_program)
        ++ [Call.frame] }
  else
    { state := s, ret := false, calls := [] }

/-! ### Observers on the list of renderer calls -/

/-- Number of `bgfx::submit` calls. -/
def submits (cs : List Call) : Nat :=
  cs.countP (fun c => match c with
    | Call.submit _ _ => true
    | _ => false)

/-- Number of `bgfx::touch` calls. -/
def touches (cs : List Call) : Nat :=
  cs.countP (fun c => match c with
    | Call.touch _ => true
    | _ => false)

/-- Number of `bgfx::frame` calls. -/
def frameEnds (cs : List Call) : Nat :=
  cs.countP (fun c => match c with
    | Call.frame => true
    | _ => false)

/-- Handles returned by the `CREATE_INDEX` calls, in call order. -/
def createdIndex (cs : List Call) : List Handle :=
  cs.filterMap (fun c => match c with
    | Call.createIndex h => some h
    | _ => none)

/-- Handles returned by the `CREATE_VERTEX` calls, in call order. -/
def createdVertex (cs : List Call) : List Handle :=
  cs.filterMap (fun c => match c with
    | Call.createVertex h => some h
    | _ => none)

/-- Arguments of the `DESTORY_INDEX` calls, in call order. -/
def destroyedIndex (cs : List Call) : List (Option Handle) :=
  cs.filterMap (fun c => match c with
    | Call.destroyIndex h => some h
    | _ => none)

/-- Arguments of the `DESTORY_VERTEX` calls, in call order. -/
def destroyedVertex (cs : List Call) : List (Option Handle) :=
  cs.filterMap (fun c => match c with
    | Call.destroyVertex h => some h
    | _ => none)

/-- Number of objects spawned: every `createCube` issues one `CREATE_INDEX`. -/
def spawns (cs : List Call) : Nat :=
  (createdIndex cs).length

/-- Arguments of the `bgfx::setTransform` calls, in call order. -/
def transformsSet (cs : List Call) : List Mtx :=
  cs.filterMap (fun c => match c with
    | Call.setTransform m => some m
    | _ => none)

/-- Model matrix in effect at each `bgfx::submit`, in call order: the argument of
the latest `bgfx::setTransform` since the previous submit (`none` if there was
none); `cur` is the matrix in effect when the list starts. -/
def submittedWith (cur : Option Mtx) : List Call → List (Option Mtx)
  | [] => []
  | Call.setTransform m :: cs => submittedWith (some m) cs
  | Call.submit _ _ :: cs => cur :: submittedWith none cs
  | _ :: cs => submittedWith cur cs

/-! ### Variants of the render loop (for comparison with the loop as written) -/

/-- Inner loop with `continue` in place of `break`: a cell whose index is not
below the object count is skipped and the row goes on. -/
def innerLoopContinue (s : Cubes) (f : FrameInput) (yy : Nat) : List Nat → List Draw
  | [] => []
  | xx :: rest =>
    if yy * 11 + xx ≥ s.m_objCnt then innerLoopContinue s f yy rest
    else drawCell s f yy xx :: innerLoopContinue s f yy rest

/-- Render loop with `continue` in place of `break`. -/
def renderLoopContinue (s : Cubes) (f : FrameInput) : List Draw :=
  (List.range 11).flatMap (fun yy => innerLoopContinue s f yy (List.range 11))

/-- Inner loop that also reports whether it met a cell whose index is not below
the object count. -/
def innerLoopStop (s : Cubes) (f : FrameInput) (yy : Nat) : List Nat → List Draw × Bool
  | [] => ([], false)
  | xx :: rest =>
    if yy * 11 + xx ≥ s.m_objCnt then ([], true)
    else (drawCell s f yy xx :: (innerLoopStop s f yy rest).1, (innerLoopStop s f yy rest).2)

/-- Outer loop that stops iterating entirely at the first such cell. -/
def outerLoopStop (s : Cubes) (f : FrameInput) : List Nat → List Draw
  | [] => []
  | yy :: rows =>
    if (innerLoopStop s f yy (List.range 11)).2 then (innerLoopStop s f yy (List.range 11)).1
    else (innerLoopStop s f yy (List.range 11)).1 ++ outerLoopStop s f rows

/-- Render loop that leaves both loops at the first cell whose index is not
below the object count. -/
def renderLoopStop (s : Cubes) (f : FrameInput) : List Draw :=
  outerLoopStop s f (List.range 11)

/-! ### Runs -/

/-- State after a sequence of `update` calls. -/
def runUpdates (s : Cubes) : List FrameInput → Cubes
  | [] => s
  | f :: fs => runUpdates (update s f).state fs

/-- Renderer calls of a sequence of `update` calls, concatenated. -/
def runCalls (s : Cubes) : List FrameInput → List Call
  | [] => []
  | f :: fs => (update s f).calls ++ runCalls (update s f).state fs

/-- Handle-list invariant. -/
def Inv (s : Cubes) : Prop :=
  s.m_dvbhVtr.length = s.m_dibhVtr.length ∧ s.m_dibhVtr.length = s.m_objCnt

/-- Operations that may follow `init`. -/
inductive Op where
  | update (f : FrameInput)
  | shutdown

/-- State after one operation. -/
def Op.apply (s : Cubes) : Op → Cubes
  | Op.update f => (DynamicCube.update s f).state
  | Op.shutdown => (DynamicCube.shutdown s).state

/-- State after a sequence of operations. -/
def runOps (s : Cubes) : List Op → Cubes
  | [] => s
  | o :: os => runOps (o.apply s) os

/-- The spawn condition holds at every frame taken before the cap is reached. -/
def SpawnHeld (s : Cubes) : List FrameInput → Prop
  | [] => True
  | f :: fs => (s.m_objCnt < 121 → f.time > (s.m_objCnt : ℚ)) ∧ SpawnHeld (update s f).state fs

/-! ### Concrete inputs -/

/-- A freshly constructed object whose scalar members hold arbitrary values. -/
def fresh0 : Cubes :=
  { m_width := 7, m_height := 7, m_debug := 7, m_reset := 7, m_program := 7,
    m_timeOffset := 7, m_dvbhVtr := [], m_dibhVtr := [], m_objCnt := 7 }

/-- Library values for `init`. -/
def env0 : InitEnv :=
  { BGFX_DEBUG_TEXT := 8, BGFX_RESET_VSYNC := 128, program := 1, hpCounter := 0 }

/-- A frame that is not terminated, at elapsed time `t`, in which the renderer
would hand out the handles `hi` and `hv`. -/
def frameAt (t : ℚ) (hi hv : Handle) : FrameInput :=
  { exit := false, width := 1280, height := 720, debug := 8, reset := 128, hmd := none,
    time := t, mtxRotateXY := fun _ _ _ => 0, newIdx := hi, newVtx := hv }

/-- A frame in which the event source signals termination. -/
def exitFrame : FrameInput :=
  { exit := true, width := 1280, height := 720, debug := 8, reset := 128, hmd := none,
    time := 3, mtxRotateXY := fun _ _ _ => 0, newIdx := 50, newVtx := 51 }

/-- A state with `c` spawned objects, handles `100 + i` and `200 + i`. -/
def stateWith (c : Nat) : Cubes :=
  { m_width := 1280, m_height := 720, m_debug := 8, m_reset := 128, m_program := 1,
    m_timeOffset := 0, m_dvbhVtr := (List.range c).map (fun i => 100 + i),
    m_dibhVtr := (List.range c).map (fun i => 200 + i), m_objCnt := c }

/-! ### The render loop in closed form -/

theorem takeWhile_lt_range (m k : Nat) :
    (List.range m).takeWhile (fun x => decide (x < k)) = List.range (min m k) := by
  induction m generalizing k with
  | zero => simp
  | succ m ih =>
    cases k with
    | zero => simp [List.range_succ_eq_map]
    | succ k =>
      rw [List.range_succ_eq_map, List.takeWhile_cons_of_pos (by simp), List.takeWhile_map]
      have h : ((fun x => decide (x < k + 1)) ∘ Nat.succ) = fun x => decide (x < k) := by
        funext x
        simp
      rw [h, ih k, Nat.succ_min_succ, List.range_succ_eq_map]

theorem filter_lt_range (m k : Nat) :
    (List.range m).filter (fun x => decide (x < k)) = List.range (min m k) := by
  induction m generalizing k with
  | zero => simp
  | succ m ih =>
    cases k with
    | zero => simp
    | succ k =>
      rw [List.range_succ_eq_map, List.filter_cons_of_pos (by simp), List.filter_map]
      have h : ((fun x => decide (x < k + 1)) ∘ Nat.succ) = fun x => decide (x < k) := by
        funext x
        simp
      rw [h, ih k, Nat.succ_min_succ, List.range_succ_eq_map]

theorem innerLoop_eq_takeWhile (s : Cubes) (f : FrameInput) (yy : Nat) (xs : List Nat) :
    innerLoop s f yy xs
      = (xs.takeWhile (fun xx => decide (xx < s.m_objCnt - yy * 11))).map (drawCell s f yy) := by
  induction xs with
  | nil => simp [innerLoop]
  | cons xx rest ih =>
    by_cases h : yy * 11 + xx ≥ s.m_objCnt
    · have h2 : ¬ xx < s.m_objCnt - yy * 11 := by omega
      simp [innerLoop, h, h2]
    · have h2 : xx < s.m_objCnt - yy * 11 := by omega
      simp [innerLoop, h, h2, ih]

theorem innerLoop_row (s : Cubes) (f : FrameInput) (yy : Nat) :
    innerLoop s f yy (List.range 11)
      = (List.range (min 11 (s.m_objCnt - yy * 11))).map (drawCell s f yy) := by
  rw [innerLoop_eq_takeWhile, takeWhile_lt_range]

theorem row_as_cells (s : Cubes) (f : FrameInput) (yy n : Nat) (hn : n ≤ 11) :
    (List.range n).map (drawCell s f yy)
      = ((List.range n).map (fun x => yy * 11 + x)).map
          (fun i => drawCell s f (i / 11) (i % 11)) := by
  rw [List.map_map]
  apply List.map_congr_left
  intro x hx
  have hx11 : x < 11 := lt_of_lt_of_le (List.mem_range.mp hx) hn
  have h1 : (yy * 11 + x) / 11 = yy := by omega
  have h2 : (yy * 11 + x) % 11 = x := by omega
  simp [h1, h2]

theorem rows_closed_form (s : Cubes) (f : FrameInput) (R : Nat) :
    (List.range R).flatMap (fun yy => innerLoop s f yy (List.range 11))
      = (List.range (min s.m_objCnt (R * 11))).map
          (fun i => drawCell s f (i / 11) (i % 11)) := by
  induction R with
  | zero => simp
  | succ R ih =>
    rw [List.range_succ, List.flatMap_append, ih]
    simp only [List.flatMap_cons, List.flatMap_nil, List.append_nil]
    rw [innerLoop_row, row_as_cells s f R _ (Nat.min_le_left _ _), ← List.map_append]
    congr 1
    have hlen : min s.m_objCnt ((R + 1) * 11)
        = min s.m_objCnt (R * 11) + min 11 (s.m_objCnt - R * 11) := by omega
    rw [hlen, List.range_add]
    congr 1
    by_cases hc : s.m_objCnt ≤ R * 11
    · have h0 : min 11 (s.m_objCnt - R * 11) = 0 := by omega
      simp [h0]
    · have h1 : min s.m_objCnt (R * 11) = R * 11 := by omega
      rw [h1]

/-- The render loop submits the cells with linear index below
`min m_objCnt 121`, in increasing order. -/
theorem renderLoop_closed_form (s : Cubes) (f : FrameInput) :
    renderLoop s f
      = (List.range (min s.m_objCnt 121)).map (fun i => drawCell s f (i / 11) (i % 11)) := by
  unfold renderLoop
  rw [rows_closed_form]

/-! ### The spawn step and the state after `update` -/

theorem spawnStep_spawn (s : Cubes) (f : FrameInput)
    (h : s.m_objCnt < 121 ∧ f.time > (s.m_objCnt : ℚ)) :
    spawnStep s f = createCube f.newIdx f.newVtx s := by
  simp [spawnStep, h.1, h.2]

theorem spawnStep_idle (s : Cubes) (f : FrameInput)
    (h : ¬ (s.m_objCnt < 121 ∧ f.time > (s.m_objCnt : ℚ))) :
    spawnStep s f = { state := s, calls := [] } := by
  unfold spawnStep
  by_cases h1 : s.m_objCnt < 121
  · have h2 : ¬ f.time > (s.m_objCnt : ℚ) := fun h2 => h ⟨h1, h2⟩
    simp [h1, h2]
  · simp [h1]

theorem createCube_objCnt (a b : Handle) (s : Cubes) (h : s.m_objCnt + 1 < 2 ^ 32) :
    (createCube a b s).state.m_objCnt = s.m_objCnt + 1 := by
  simp only [createCube]
  exact Nat.mod_eq_of_lt h

theorem spawnStep_objCnt (s : Cubes) (f : FrameInput) :
    (spawnStep s f).state.m_objCnt
      = if s.m_objCnt < 121 ∧ f.time > (s.m_objCnt : ℚ) then s.m_objCnt + 1
        else s.m_objCnt := by
  by_cases h : s.m_objCnt < 121 ∧ f.time > (s.m_objCnt : ℚ)
  · rw [spawnStep_spawn s f h, if_pos h]
    exact createCube_objCnt _ _ _ (by have := h.1; omega)
  · rw [spawnStep_idle s f h, if_neg h]

theorem update_exit (s : Cubes) (f : FrameInput) (h : f.exit = true) :
    update s f = { state := processEvents s f, ret := false, calls := [] } := by
  simp [update, h]

theorem update_run (s : Cubes) (f : FrameInput) (h : f.exit = false) :
    update s f
      = { state := (spawnStep (processEvents s f) f).state
          ret := true
          calls := [Call.dbgTextClear, Call.dbgTextPrintf 1, Call.dbgTextPrintf 2,
              Call.dbgTextPrintf 3] ++ viewSetup (processEvents s f) f ++ [Call.touch 0]
            ++ (spawnStep (processEvents s f) f).calls
            ++ (renderLoop (spawnStep (processEvents s f) f).state f).flatMap
                (Draw.calls (spawnStep (processEvents s f) f).state.m_program)
            ++ [Call.frame] } := by
  simp [update, h]

theorem update_objCnt (s : Cubes) (f : FrameInput) :
    (update s f).state.m_objCnt
      = if f.exit = false ∧ s.m_objCnt < 121 ∧ f.time > (s.m_objCnt : ℚ)
        then s.m_objCnt + 1 else s.m_objCnt := by
  cases he : f.exit with
  | true => simp [update_exit s f he, processEvents]
  | false =>
    rw [update_run s f he]
    simp only [spawnStep_objCnt, true_and]
    rfl

theorem update_objCnt_le (s : Cubes) (f : FrameInput) (h : s.m_objCnt ≤ 121) :
    (update s f).state.m_objCnt ≤ 121 := by
  rw [update_objCnt]
  split_ifs with hc
  · omega
  · exact h

theorem createCube_inv (a b : Handle) (s : Cubes) (h : Inv s) (hlt : s.m_objCnt + 1 < 2 ^ 32) :
    Inv (createCube a b s).state := by
  obtain ⟨h1, h2⟩ := h
  simp only [Inv, createCube, List.length_append, List.length_cons, List.length_nil,
    Nat.mod_eq_of_lt hlt]
  omega

theorem update_inv (s : Cubes) (f : FrameInput) (h : Inv s) : Inv (update s f).state := by
  have hp : Inv (processEvents s f) := h
  cases he : f.exit with
  | true =>
    rw [update_exit s f he]
    exact hp
  | false =>
    rw [update_run s f he]
    by_cases hc : (processEvents s f).m_objCnt < 121
        ∧ f.time > ((processEvents s f).m_objCnt : ℚ)
    · rw [spawnStep_spawn _ f hc]
      exact createCube_inv _ _ _ hp (by have := hc.1; omega)
    · rw [spawnStep_idle _ f hc]
      exact hp

theorem runUpdates_objCnt_le (s : Cubes) (fs : List FrameInput) (h : s.m_objCnt ≤ 121) :
    (runUpdates s fs).m_objCnt ≤ 121 := by
  induction fs generalizing s with
  | nil => exact h
  | cons f fs ih => exact ih _ (update_objCnt_le s f h)

theorem runOps_inv_le (s : Cubes) (ops : List Op) (h : Inv s) (hc : s.m_objCnt ≤ 121) :
    Inv (runOps s ops) ∧ (runOps s ops).m_objCnt ≤ 121 := by
  induction ops generalizing s with
  | nil => exact ⟨h, hc⟩
  | cons o os ih =>
    cases o with
    | update f => exact ih _ (update_inv s f h) (update_objCnt_le s f hc)
    | shutdown => exact ih _ h hc

theorem frames_count_from (s : Cubes) (fs : List FrameInput) (hc : s.m_objCnt ≤ 121)
    (hrun : ∀ f ∈ fs, f.exit = false) (hs : SpawnHeld s fs) :
    (runUpdates s fs).m_objCnt = min (s.m_objCnt + fs.length) 121 := by
  induction fs generalizing s with
  | nil => simp [runUpdates, hc]
  | cons f fs ih =>
    have he : f.exit = false := hrun f (List.mem_cons_self _ _)
    have hrest : ∀ g ∈ fs, g.exit = false := fun g hg => hrun g (List.mem_cons_of_mem _ hg)
    have hnext := ih (update s f).state (update_objCnt_le s f hc) hrest hs.2
    simp only [runUpdates, List.length_cons]
    rw [hnext, update_objCnt]
    by_cases hlt : s.m_objCnt < 121
    · have ht := hs.1 hlt
      rw [if_pos ⟨he, hlt, ht⟩]
      omega
    · have hnot : ¬ (f.exit = false ∧ s.m_objCnt < 121 ∧ f.time > (s.m_objCnt : ℚ)) :=
        fun h => hlt h.2.1
      rw [if_neg hnot]
      omega

/-! ### Renderer calls of one `update` -/

theorem submits_append (a b : List Call) : submits (a ++ b) = submits a + submits b := by
  simp [submits, List.countP_append]

theorem touches_append (a b : List Call) : touches (a ++ b) = touches a + touches b := by
  simp [touches, List.countP_append]

theorem frameEnds_append (a b : List Call) : frameEnds (a ++ b) = frameEnds a + frameEnds b := by
  simp [frameEnds, List.countP_append]

theorem createdIndex_append (a b : List Call) :
    createdIndex (a ++ b) = createdIndex a ++ createdIndex b := by
  simp [createdIndex, List.filterMap_append]

theorem createdVertex_append (a b : List Call) :
    createdVertex (a ++ b) = createdVertex a ++ createdVertex b := by
  simp [createdVertex, List.filterMap_append]

theorem draws_submits (p : Handle) (ds : List Draw) :
    submits (ds.flatMap (Draw.calls p)) = ds.length := by
  induction ds with
  | nil => simp [submits]
  | cons d ds ih =>
    rw [List.flatMap_cons, submits_append, ih]
    simp [submits, Draw.calls, List.countP_cons]
    omega

theorem draws_touches (p : Handle) (ds : List Draw) :
    touches (ds.flatMap (Draw.calls p)) = 0 := by
  induction ds with
  | nil => simp [touches]
  | cons d ds ih =>
    rw [List.flatMap_cons, touches_append, ih]
    simp [touches, Draw.calls, List.countP_cons]

theorem draws_frameEnds (p : Handle) (ds : List Draw) :
    frameEnds (ds.flatMap (Draw.calls p)) = 0 := by
  induction ds with
  | nil => simp [frameEnds]
  | cons d ds ih =>
    rw [List.flatMap_cons, frameEnds_append, ih]
    simp [frameEnds, Draw.calls, List.countP_cons]

theorem draws_createdIndex (p : Handle) (ds : List Draw) :
    createdIndex (ds.flatMap (Draw.calls p)) = [] := by
  induction ds with
  | nil => simp [createdIndex]
  | cons d ds ih =>
    rw [List.flatMap_cons, createdIndex_append, ih]
    simp [createdIndex, Draw.calls]

theorem draws_createdVertex (p : Handle) (ds : List Draw) :
    createdVertex (ds.flatMap (Draw.calls p)) = [] := by
  induction ds with
  | nil => simp [createdVertex]
  | cons d ds ih =>
    rw [List.flatMap_cons, createdVertex_append, ih]
    simp [createdVertex, Draw.calls]

theorem renderLoop_length (s : Cubes) (f : FrameInput) :
    (renderLoop s f).length = min s.m_objCnt 121 := by
  simp [renderLoop_closed_form]

theorem spawnStep_calls (s : Cubes) (f : FrameInput) :
    (spawnStep s f).calls
      = if s.m_objCnt < 121 ∧ f.time > (s.m_objCnt : ℚ)
        then [Call.createIndex f.newIdx, Call.createVertex f.newVtx] else [] := by
  by_cases h : s.m_objCnt < 121 ∧ f.time > (s.m_objCnt : ℚ)
  · rw [spawnStep_spawn s f h, if_pos h]
    rfl
  · rw [spawnStep_idle s f h, if_neg h]

theorem spawnStep_lists (s : Cubes) (f : FrameInput) :
    (spawnStep s f).state.m_dibhVtr = s.m_dibhVtr ++ createdIndex (spawnStep s f).calls ∧
    (spawnStep s f).state.m_dvbhVtr = s.m_dvbhVtr ++ createdVertex (spawnStep s f).calls := by
  by_cases h : s.m_objCnt < 121 ∧ f.time > (s.m_objCnt : ℚ)
  · rw [spawnStep_spawn s f h]
    simp [createCube, createdIndex, createdVertex]
  · rw [spawnStep_idle s f h]
    simp [createdIndex, createdVertex]

theorem update_submits (s : Cubes) (f : FrameInput) (h : f.exit = false) :
    submits (update s f).calls = min (update s f).state.m_objCnt 121 := by
  rw [update_run s f h]
  simp only [submits_append, draws_submits, renderLoop_length]
  have h1 : submits (viewSetup (processEvents s f) f) = 0 := by
    unfold viewSetup
    split <;> simp [submits]
  have h2 : submits (spawnStep (processEvents s f) f).calls = 0 := by
    rw [spawnStep_calls]
    split_ifs <;> simp [submits]
  rw [h1, h2]
  simp [submits]

theorem update_touches (s : Cubes) (f : FrameInput) (h : f.exit = false) :
    touches (update s f).calls = 1 := by
  rw [update_run s f h]
  simp only [touches_append, draws_touches]
  have h1 : touches (viewSetup (processEvents s f) f) = 0 := by
    unfold viewSetup
    split <;> simp [touches]
  have h2 : touches (spawnStep (processEvents s f) f).calls = 0 := by
    rw [spawnStep_calls]
    split_ifs <;> simp [touches]
  rw [h1, h2]
  simp [touches]

theorem update_frameEnds (s : Cubes) (f : FrameInput) (h : f.exit = false) :
    frameEnds (update s f).calls = 1 := by
  rw [update_run s f h]
  simp only [frameEnds_append, draws_frameEnds]
  have h1 : frameEnds (viewSetup (processEvents s f) f) = 0 := by
    unfold viewSetup
    split <;> simp [frameEnds]
  have h2 : frameEnds (spawnStep (processEvents s f) f).calls = 0 := by
    rw [spawnStep_calls]
    split_ifs <;> simp [frameEnds]
  rw [h1, h2]
  simp [frameEnds]

theorem update_created (s : Cubes) (f : FrameInput) :
    createdIndex (update s f).calls
        = (if f.exit = false ∧ s.m_objCnt < 121 ∧ f.time > (s.m_objCnt : ℚ)
           then [f.newIdx] else []) ∧
    createdVertex (update s f).calls
        = (if f.exit = false ∧ s.m_objCnt < 121 ∧ f.time > (s.m_objCnt : ℚ)
           then [f.newVtx] else []) := by
  cases he : f.exit with
  | true => simp [update_exit s f he, createdIndex, createdVertex]
  | false =>
    rw [update_run s f he]
    simp only [createdIndex_append, createdVertex_append, draws_createdIndex,
      draws_createdVertex, spawnStep_calls]
    have h1 : createdIndex (viewSetup (processEvents s f) f) = [] ∧
        createdVertex (viewSetup (processEvents s f) f) = [] := by
      unfold viewSetup
      split <;> simp [createdIndex, createdVertex]
    rw [h1.1, h1.2]
    have hp : (processEvents s f).m_objCnt = s.m_objCnt := rfl
    rw [hp]
    by_cases hc : s.m_objCnt < 121 ∧ f.time > (s.m_objCnt : ℚ)
    · simp [hc, createdIndex, createdVertex]
    · simp [hc, createdIndex, createdVertex]

theorem update_lists (s : Cubes) (f : FrameInput) :
    (update s f).state.m_dibhVtr = s.m_dibhVtr ++ createdIndex (update s f).calls ∧
    (update s f).state.m_dvbhVtr = s.m_dvbhVtr ++ createdVertex (update s f).calls := by
  have hc := update_created s f
  rw [hc.1, hc.2]
  cases he : f.exit with
  | true => simp [update_exit s f he, processEvents]
  | false =>
    rw [update_run s f he]
    have hl := spawnStep_lists (processEvents s f) f
    simp only [spawnStep_calls] at hl
    have hp : (processEvents s f).m_objCnt = s.m_objCnt := rfl
    rw [hp] at hl
    by_cases hcnd : s.m_objCnt < 121 ∧ f.time > (s.m_objCnt : ℚ)
    · simpa [hcnd, createdIndex, createdVertex, processEvents] using hl
    · simpa [hcnd, createdIndex, createdVertex, processEvents] using hl

theorem update_spawns (s : Cubes) (f : FrameInput) :
    spawns (update s f).calls
      = if f.exit = false ∧ s.m_objCnt < 121 ∧ f.time > (s.m_objCnt : ℚ) then 1 else 0 := by
  unfold spawns
  rw [(update_created s f).1]
  split_ifs <;> rfl

/-! ### Claims on the state alone -/

/-- C1: the handle-list invariant (both handle lists as long as the object count)
holds after `init` on a freshly constructed object; `update` (any frame input)
and `shutdown` preserve it from any state, `createCube` preserves it whenever
the `uint32_t` count does not wrap, and it holds in every state reached from
`init` by any sequence of `update` and `shutdown` calls, where a `createCube`
call preserves it too. -/
theorem handle_list_invariant :
    (∀ (env : InitEnv) (s0 : Cubes), Fresh s0 → Inv (init env s0).state) ∧
    (∀ (s : Cubes) (f : FrameInput), Inv s → Inv (update s f).state) ∧
    (∀ s : Cubes, Inv s → Inv (shutdown s).state) ∧
    (∀ (s : Cubes) (a b : Handle), Inv s → s.m_objCnt + 1 < 2 ^ 32 →
        Inv (createCube a b s).state) ∧
    (∀ (env : InitEnv) (s0 : Cubes) (ops : List Op), Fresh s0 →
        Inv (runOps (init env s0).state ops) ∧
        ∀ a b : Handle, Inv (createCube a b (runOps (init env s0).state ops)).state) := by
  have hinit : ∀ (env : InitEnv) (s0 : Cubes), Fresh s0 → Inv (init env s0).state := by
    intro env s0 h
    simp [Inv, init, h.1, h.2]
  refine ⟨hinit, update_inv, fun s h => h, fun s a b h hlt => createCube_inv a b s h hlt, ?_⟩
  intro env s0 ops h
  have hr := runOps_inv_le (init env s0).state ops (hinit env s0 h) (by simp [init])
  exact ⟨hr.1, fun a b => createCube_inv a b _ hr.1 (by have := hr.2; omega)⟩

/-- Witness of C1: a fresh object, `init`, one spawning `update`, `shutdown`. -/
theorem handle_list_invariant_witness :
    Fresh fresh0 ∧
    Inv (runOps (init env0 fresh0).state [Op.update (frameAt 5 20 30), Op.shutdown]) :=
  ⟨⟨rfl, rfl⟩, (handle_list_invariant.2.2.2.2 env0 fresh0 _ ⟨rfl, rfl⟩).1⟩

/-- C2: in every state reached from `init` by a sequence of `update` calls the
object count is at most 121, and once it is 121 no `update`, nor any sequence
of them, changes it. -/
theorem cap_invariant :
    (∀ (env : InitEnv) (s0 : Cubes) (fs : List FrameInput),
        (runUpdates (init env s0).state fs).m_objCnt ≤ 121) ∧
    (∀ (s : Cubes) (f : FrameInput), s.m_objCnt = 121 →
        (update s f).state.m_objCnt = 121) ∧
    (∀ (s : Cubes) (fs : List FrameInput), s.m_objCnt = 121 →
        (runUpdates s fs).m_objCnt = 121) := by
  have hstep : ∀ (s : Cubes) (f : FrameInput), s.m_objCnt = 121 →
      (update s f).state.m_objCnt = 121 := by
    intro s f h
    rw [update_objCnt, if_neg (by omega), h]
  refine ⟨fun env s0 fs => runUpdates_objCnt_le _ fs (by simp [init]), hstep, ?_⟩
  intro s fs
  induction fs generalizing s with
  | nil => exact fun h => h
  | cons f fs ih => exact fun h => ih _ (hstep s f h)

/-- Witness of C2: at the cap an `update` at elapsed time 500 leaves the count. -/
theorem cap_invariant_witness :
    (stateWith 121).m_objCnt = 121 ∧
    (update (stateWith 121) (frameAt 500 1 2)).state.m_objCnt = 121 :=
  ⟨rfl, cap_invariant.2.1 (stateWith 121) (frameAt 500 1 2) rfl⟩

/-- C5: after `init`, `N` non-terminated `update` calls in which the elapsed time
exceeds the current count at each frame taken before the cap leave the object
count at `min N 121`. -/
theorem count_after_frames (env : InitEnv) (s0 : Cubes) (fs : List FrameInput)
    (hrun : ∀ f ∈ fs, f.exit = false) (hs : SpawnHeld (init env s0).state fs) :
    (runUpdates (init env s0).state fs).m_objCnt = min fs.length 121 := by
  have h := frames_count_from (init env s0).state fs (by simp [init]) hrun hs
  simpa [init] using h

/-- Witness of C5: three frames at 0.5 s, 1.5 s and 7 s give count 3. -/
theorem count_after_frames_witness :
    (runUpdates (init env0 fresh0).state
      [frameAt (1 / 2) 10 11, frameAt (3 / 2) 12 13, frameAt 7 14 15]).m_objCnt = 3 :=
  count_after_frames env0 fresh0
    [frameAt (1 / 2) 10 11, frameAt (3 / 2) 12 13, frameAt 7 14 15]
    (by simp [frameAt])
    (by
      simp only [SpawnHeld, update_objCnt]
      norm_num [init, frameAt])

/-! ### Claims on one `update` call -/

/-- C4: one `update` call leaves the object count or raises it by exactly one,
whatever the elapsed time; it spawns at most one object and the count grows by
the number of spawns.  After `init`, the first non-terminated `update` at
elapsed time 5 spawns exactly one object and leaves the count at 1. -/
theorem rate_limit :
    (∀ (s : Cubes) (f : FrameInput),
        (update s f).state.m_objCnt = s.m_objCnt ∨
        (update s f).state.m_objCnt = s.m_objCnt + 1) ∧
    (∀ (s : Cubes) (f : FrameInput),
        spawns (update s f).calls ≤ 1 ∧
        (update s f).state.m_objCnt = s.m_objCnt + spawns (update s f).calls) ∧
    (∀ (env : InitEnv) (s0 : Cubes) (f : FrameInput), f.exit = false → f.time = 5 →
        spawns (update (init env s0).state f).calls = 1 ∧
        (update (init env s0).state f).state.m_objCnt = 1) := by
  refine ⟨?_, ?_, ?_⟩
  · intro s f
    rw [update_objCnt]
    split_ifs
    · exact Or.inr rfl
    · exact Or.inl rfl
  · intro s f
    rw [update_objCnt, update_spawns]
    split_ifs <;> simp
  · intro env s0 f he ht
    have h0 : (init env s0).state.m_objCnt = 0 := rfl
    rw [update_objCnt, update_spawns, h0, ht]
    norm_num [he]

/-- Witness of C4: `init`, then one frame at 5.0 s. -/
theorem rate_limit_witness :
    (frameAt 5 20 30).exit = false ∧ (frameAt 5 20 30).time = 5 ∧
    spawns (update (init env0 fresh0).state (frameAt 5 20 30)).calls = 1 ∧
    (update (init env0 fresh0).state (frameAt 5 20 30)).state.m_objCnt = 1 :=
  ⟨rfl, rfl, rate_limit.2.2 env0 fresh0 (frameAt 5 20 30) rfl rfl⟩

/-- C3 as stated fails: after `init` (count 0) a non-terminated `update` at elapsed
time 0.5 s, whose whole seconds are 0, spawns one object and submits one draw;
the equivalence of "count becomes c+1" with "c < 121 and floor t > c" is false
there. -/
theorem floor_policy_counterexample :
    (init env0 fresh0).state.m_objCnt = 0 ∧
    (frameAt (1 / 2) 20 30).exit = false ∧
    ⌊(frameAt (1 / 2) 20 30).time⌋ = 0 ∧
    spawns (update (init env0 fresh0).state (frameAt (1 / 2) 20 30)).calls = 1 ∧
    submits (update (init env0 fresh0).state (frameAt (1 / 2) 20 30)).calls = 1 ∧
    (update (init env0 fresh0).state (frameAt (1 / 2) 20 30)).state.m_objCnt = 1 ∧
    ¬ ((update (init env0 fresh0).state (frameAt (1 / 2) 20 30)).state.m_objCnt
          = (init env0 fresh0).state.m_objCnt + 1 ↔
        ((init env0 fresh0).state.m_objCnt < 121 ∧
          ⌊(frameAt (1 / 2) 20 30).time⌋ > ((init env0 fresh0).state.m_objCnt : ℤ))) := by
  have h0 : (init env0 fresh0).state.m_objCnt = 0 := rfl
  have he : (frameAt (1 / 2) 20 30).exit = false := rfl
  have ht : (frameAt (1 / 2) 20 30).time = 1 / 2 := rfl
  have hfl : ⌊(frameAt (1 / 2) 20 30).time⌋ = 0 := by
    rw [ht, Int.floor_eq_iff]
    norm_num
  have hc : (update (init env0 fresh0).state (frameAt (1 / 2) 20 30)).state.m_objCnt = 1 := by
    rw [update_objCnt, h0, ht]
    norm_num [he]
  have hsp : spawns (update (init env0 fresh0).state (frameAt (1 / 2) 20 30)).calls = 1 := by
    rw [update_spawns, h0, ht]
    norm_num [he]
  have hsub : submits (update (init env0 fresh0).state (frameAt (1 / 2) 20 30)).calls = 1 := by
    rw [update_submits _ _ he, hc]
    simp
  refine ⟨h0, he, hfl, hsp, hsub, hc, ?_⟩
  rw [hc, h0, hfl]
  simp

/-- C3 amended: a non-terminated `update` spawns exactly one object (the count
becomes c+1) if and only if c < 121 and the elapsed time itself is greater than
c; otherwise it spawns none and the count stays.  After `init`, a single
`update` with elapsed time at most 0 performs no spawn and no draw submission,
and one with positive elapsed time performs one spawn and one draw submission. -/
theorem spawn_policy :
    (∀ (s : Cubes) (f : FrameInput), f.exit = false →
        ((spawns (update s f).calls = 1 ∧ (update s f).state.m_objCnt = s.m_objCnt + 1) ↔
          (s.m_objCnt < 121 ∧ f.time > (s.m_objCnt : ℚ)))) ∧
    (∀ (s : Cubes) (f : FrameInput), f.exit = false →
        ¬ (s.m_objCnt < 121 ∧ f.time > (s.m_objCnt : ℚ)) →
        spawns (update s f).calls = 0 ∧ (update s f).state.m_objCnt = s.m_objCnt) ∧
    (∀ (env : InitEnv) (s0 : Cubes) (f : FrameInput), f.exit = false → f.time ≤ 0 →
        spawns (update (init env s0).state f).calls = 0 ∧
        submits (update (init env s0).state f).calls = 0) ∧
    (∀ (env : InitEnv) (s0 : Cubes) (f : FrameInput), f.exit = false → 0 < f.time →
        spawns (update (init env s0).state f).calls = 1 ∧
        submits (update (init env s0).state f).calls = 1) := by
  refine ⟨?_, ?_, ?_, ?_⟩
  · intro s f he
    rw [update_objCnt, update_spawns]
    by_cases hc : s.m_objCnt < 121 ∧ f.time > (s.m_objCnt : ℚ)
    · simp [he, hc]
    · have hn : ¬ (f.exit = false ∧ s.m_objCnt < 121 ∧ f.time > (s.m_objCnt : ℚ)) :=
        fun h => hc h.2
      rw [if_neg hn, if_neg hn]
      simp [hc]
  · intro s f _ hc
    have hn : ¬ (f.exit = false ∧ s.m_objCnt < 121 ∧ f.time > (s.m_objCnt : ℚ)) :=
      fun h => hc h.2
    rw [update_objCnt, update_spawns, if_neg hn, if_neg hn]
    exact ⟨rfl, rfl⟩
  · intro env s0 f he ht
    have h0 : (init env s0).state.m_objCnt = 0 := rfl
    have hn : ¬ (f.exit = false ∧ (init env s0).state.m_objCnt < 121
        ∧ f.time > ((init env s0).state.m_objCnt : ℚ)) := by
      rw [h0]
      intro h
      have := h.2.2
      simp only [Nat.cast_zero] at this
      exact absurd this (not_lt.mpr ht)
    rw [update_spawns, update_submits _ _ he, update_objCnt, if_neg hn, if_neg hn, h0]
    simp
  · intro env s0 f he ht
    have h0 : (init env s0).state.m_objCnt = 0 := rfl
    have hy : f.exit = false ∧ (init env s0).state.m_objCnt < 121
        ∧ f.time > ((init env s0).state.m_objCnt : ℚ) := by
      rw [h0]
      exact ⟨he, by norm_num, by simpa using ht⟩
    rw [update_spawns, update_submits _ _ he, update_objCnt, if_pos hy, if_pos hy, h0]
    simp

/-- Witness of C3 amended: `init`, then one frame at elapsed time 0. -/
theorem spawn_policy_witness :
    (frameAt 0 20 30).exit = false ∧ (frameAt 0 20 30).time ≤ 0 ∧
    spawns (update (init env0 fresh0).state (frameAt 0 20 30)).calls = 0 ∧
    submits (update (init env0 fresh0).state (frameAt 0 20 30)).calls = 0 :=
  ⟨rfl, le_refl _, spawn_policy.2.2.1 env0 fresh0 (frameAt 0 20 30) rfl (le_refl _)⟩

/-- C8: when the event source signals termination, `update` returns `false`,
issues no renderer call at all (no touch, spawn, draw submission or frame end)
and leaves the object count and both handle lists unchanged; otherwise it
returns `true`, having issued exactly one touch and exactly one frame end, the
frame end being its last call. -/
theorem termination_path :
    (∀ (s : Cubes) (f : FrameInput), f.exit = true →
        (update s f).ret = false ∧ (update s f).calls = [] ∧
        touches (update s f).calls = 0 ∧ spawns (update s f).calls = 0 ∧
        submits (update s f).calls = 0 ∧ frameEnds (update s f).calls = 0 ∧
        (update s f).state.m_objCnt = s.m_objCnt ∧
        (update s f).state.m_dvbhVtr = s.m_dvbhVtr ∧
        (update s f).state.m_dibhVtr = s.m_dibhVtr) ∧
    (∀ (s : Cubes) (f : FrameInput), f.exit = false →
        (update s f).ret = true ∧ touches (update s f).calls = 1 ∧
        frameEnds (update s f).calls = 1 ∧
        (update s f).calls.getLast? = some Call.frame) := by
  refine ⟨?_, ?_⟩
  · intro s f he
    rw [update_exit s f he]
    simp [touches, spawns, submits, frameEnds, createdIndex, processEvents]
  · intro s f he
    refine ⟨?_, update_touches s f he, update_frameEnds s f he, ?_⟩
    · rw [update_run s f he]
    · rw [update_run s f he]
      exact List.getLast?_concat _

/-- Witness of C8: a terminated frame on a state holding three objects. -/
theorem termination_path_witness :
    exitFrame.exit = true ∧
    (update (stateWith 3) exitFrame).ret = false ∧
    (update (stateWith 3) exitFrame).calls = [] ∧
    (update (stateWith 3) exitFrame).state.m_objCnt = 3 :=
  ⟨rfl, (termination_path.1 (stateWith 3) exitFrame rfl).1,
    (termination_path.1 (stateWith 3) exitFrame rfl).2.1,
    (termination_path.1 (stateWith 3) exitFrame rfl).2.2.2.2.2.2.1⟩

/-! ### Claims on the render loop -/

theorem mem_renderLoop (s : Cubes) (f : FrameInput) (d : Draw) (h : d ∈ renderLoop s f) :
    ∃ i, i < s.m_objCnt ∧ i < 121 ∧ d = drawCell s f (i / 11) (i % 11) := by
  rw [renderLoop_closed_form, List.mem_map] at h
  obtain ⟨i, hi, hd⟩ := h
  rw [List.mem_range, lt_min_iff] at hi
  exact ⟨i, hi.1, hi.2, hd.symm⟩

theorem renderLoop_currIdx (s : Cubes) (f : FrameInput) :
    (renderLoop s f).map Draw.currIdx = List.range (min s.m_objCnt 121) := by
  rw [renderLoop_closed_form, List.map_map]
  conv_rhs => rw [← List.map_id (List.range (min s.m_objCnt 121))]
  apply List.map_congr_left
  intro i _
  simp only [Function.comp, drawCell, id]
  omega

theorem renderLoop_cells (s : Cubes) (f : FrameInput) :
    (renderLoop s f).map (fun d => (d.yy, d.xx))
      = (List.range (min s.m_objCnt 121)).map (fun i => (i / 11, i % 11)) := by
  rw [renderLoop_closed_form, List.map_map]
  rfl

/-- C6: when the object count `c` after the spawn step is at most 121, the render
loop submits exactly the cells with linear index `row*11+col = 0, ..., c-1`, in
increasing order, each once and none with index `c` or more, so a
non-terminated `update` issues exactly `c` draw submissions, all from the render
loop.  With `c = 10` the cells are (0,0) .. (0,9); index 10 and row 1 are not
rendered. -/
theorem rendered_set :
    (∀ (s : Cubes) (f : FrameInput), s.m_objCnt ≤ 121 →
        (renderLoop s f).map Draw.currIdx = List.range s.m_objCnt ∧
        (renderLoop s f).map (fun d => (d.yy, d.xx))
          = (List.range s.m_objCnt).map (fun i => (i / 11, i % 11)) ∧
        (∀ d ∈ renderLoop s f, d.yy < 11 ∧ d.xx < 11 ∧ d.currIdx = d.yy * 11 + d.xx ∧
          d.currIdx < s.m_objCnt) ∧
        (renderLoop s f).length = s.m_objCnt) ∧
    (∀ (s : Cubes) (f : FrameInput), f.exit = false → s.m_objCnt ≤ 121 →
        submits (update s f).calls = (update s f).state.m_objCnt ∧
        ∃ pre : List Call, submits pre = 0 ∧
          (update s f).calls
            = pre ++ (renderLoop (update s f).state f).flatMap
                (Draw.calls (update s f).state.m_program) ++ [Call.frame]) ∧
    (∀ (s : Cubes) (f : FrameInput), s.m_objCnt = 10 →
        (renderLoop s f).map (fun d => (d.yy, d.xx))
          = [(0, 0), (0, 1), (0, 2), (0, 3), (0, 4), (0, 5), (0, 6), (0, 7), (0, 8), (0, 9)] ∧
        ∀ d ∈ renderLoop s f, d.currIdx ≠ 10 ∧ d.yy ≠ 1) := by
  refine ⟨?_, ?_, ?_⟩
  · intro s f hc
    have hmin : min s.m_objCnt 121 = s.m_objCnt := Nat.min_eq_left hc
    refine ⟨?_, ?_, ?_, ?_⟩
    · rw [renderLoop_currIdx, hmin]
    · rw [renderLoop_cells, hmin]
    · intro d hd
      obtain ⟨i, hi, hi2, rfl⟩ := mem_renderLoop s f d hd
      simp only [drawCell]
      exact ⟨by omega, by omega, trivial, by omega⟩
    · rw [renderLoop_length, hmin]
  · intro s f he hc
    refine ⟨?_, ?_⟩
    · rw [update_submits s f he, Nat.min_eq_left (update_objCnt_le s f hc)]
    · rw [update_run s f he]
      refine ⟨_, ?_, rfl⟩
      simp only [submits_append]
      have h1 : submits (viewSetup (processEvents s f) f) = 0 := by
        unfold viewSetup
        split <;> simp [submits]
      have h2 : submits (spawnStep (processEvents s f) f).calls = 0 := by
        rw [spawnStep_calls]
        split_ifs <;> simp [submits]
      rw [h1, h2]
      simp [submits]
  · intro s f hc
    refine ⟨?_, ?_⟩
    · rw [renderLoop_cells, hc]
      decide
    · intro d hd
      obtain ⟨i, hi, _, rfl⟩ := mem_renderLoop s f d hd
      simp only [drawCell]
      omega

/-- Witness of C6: the state with ten objects. -/
theorem rendered_set_witness :
    (stateWith 10).m_objCnt = 10 ∧
    (renderLoop (stateWith 10) (frameAt 12 20 30)).map (fun d => (d.yy, d.xx))
      = [(0, 0), (0, 1), (0, 2), (0, 3), (0, 4), (0, 5), (0, 6), (0, 7), (0, 8), (0, 9)] :=
  ⟨rfl, (rendered_set.2.2 (stateWith 10) (frameAt 12 20 30) rfl).1⟩

theorem transformsSet_append (a b : List Call) :
    transformsSet (a ++ b) = transformsSet a ++ transformsSet b := by
  simp [transformsSet, List.filterMap_append]

theorem draws_transformsSet (p : Handle) (ds : List Draw) :
    transformsSet (ds.flatMap (Draw.calls p)) = ds.map Draw.mtx := by
  induction ds with
  | nil => simp [transformsSet]
  | cons d ds ih =>
    rw [List.flatMap_cons, transformsSet_append, ih]
    simp [transformsSet, Draw.calls]

theorem update_transformsSet (s : Cubes) (f : FrameInput) (h : f.exit = false) :
    transformsSet (update s f).calls = (renderLoop (update s f).state f).map Draw.mtx := by
  rw [update_run s f h]
  simp only [transformsSet_append, draws_transformsSet]
  have h1 : transformsSet (viewSetup (processEvents s f) f) = [] := by
    unfold viewSetup
    split <;> simp [transformsSet]
  have h2 : transformsSet (spawnStep (processEvents s f) f).calls = [] := by
    rw [spawnStep_calls]
    split_ifs <;> simp [transformsSet]
  rw [h1, h2]
  simp [transformsSet]

theorem submittedWith_draws (p : Handle) (ds : List Draw) (cur : Option Mtx) :
    submittedWith cur (ds.flatMap (Draw.calls p) ++ [Call.frame])
      = ds.map (fun d => some d.mtx) := by
  induction ds generalizing cur with
  | nil => simp [submittedWith]
  | cons d ds ih =>
    rw [List.flatMap_cons]
    simp [Draw.calls, submittedWith, ih]

theorem submittedWith_viewSetup (s : Cubes) (f : FrameInput) (cur : Option Mtx)
    (rest : List Call) :
    submittedWith cur (viewSetup s f ++ rest) = submittedWith cur rest := by
  unfold viewSetup
  split <;> simp [submittedWith]

theorem submittedWith_spawnStep (s : Cubes) (f : FrameInput) (cur : Option Mtx)
    (rest : List Call) :
    submittedWith cur ((spawnStep s f).calls ++ rest) = submittedWith cur rest := by
  rw [spawnStep_calls]
  split_ifs <;> simp [submittedWith]

theorem submittedWith_debugText (cur : Option Mtx) (rest : List Call) :
    submittedWith cur (Call.dbgTextClear :: Call.dbgTextPrintf 1 :: Call.dbgTextPrintf 2
      :: Call.dbgTextPrintf 3 :: rest) = submittedWith cur rest := by
  simp [submittedWith]

theorem submittedWith_touch (cur : Option Mtx) (rest : List Call) :
    submittedWith cur (Call.touch 0 :: rest) = submittedWith cur rest := by
  simp [submittedWith]

theorem update_submittedWith (s : Cubes) (f : FrameInput) (h : f.exit = false) :
    submittedWith none (update s f).calls
      = (renderLoop (update s f).state f).map (fun d => some d.mtx) := by
  rw [update_run s f h]
  simp only [List.append_assoc, List.cons_append, List.nil_append]
  rw [submittedWith_debugText, submittedWith_viewSetup, submittedWith_touch,
    submittedWith_spawnStep, submittedWith_draws]

theorem drawCell_translation (s : Cubes) (f : FrameInput) (yy xx : Nat) :
    (drawCell s f yy xx).mtx 12 = -15 + 3 * (xx : ℚ) ∧
    (drawCell s f yy xx).mtx 13 = -15 + 3 * (yy : ℚ) ∧
    (drawCell s f yy xx).mtx 14 = 0 := by
  refine ⟨?_, ?_, ?_⟩
  · simp only [drawCell]
    rw [Function.update_noteq (by decide), Function.update_noteq (by decide),
      Function.update_same]
    ring
  · simp only [drawCell]
    rw [Function.update_noteq (by decide), Function.update_same]
    ring
  · simp only [drawCell]
    rw [Function.update_same]

theorem renderLoop_positions (s : Cubes) (f : FrameInput) :
    (renderLoop s f).map (fun d => (d.mtx 12, d.mtx 13, d.mtx 14))
      = (List.range (min s.m_objCnt 121)).map
          (fun i => (-15 + 3 * ((i % 11 : ℕ) : ℚ), -15 + 3 * ((i / 11 : ℕ) : ℚ), (0 : ℚ))) := by
  rw [renderLoop_closed_form, List.map_map]
  apply List.map_congr_left
  intro i _
  have h := drawCell_translation s f (i / 11) (i % 11)
  show ((drawCell s f (i / 11) (i % 11)).mtx 12, (drawCell s f (i / 11) (i % 11)).mtx 13,
    (drawCell s f (i / 11) (i % 11)).mtx 14) = _
  rw [h.1, h.2.1, h.2.2]

theorem cell_position_injective :
    Function.Injective (fun i : Nat =>
      (-15 + 3 * ((i % 11 : ℕ) : ℚ), -15 + 3 * ((i / 11 : ℕ) : ℚ), (0 : ℚ))) := by
  intro i j hij
  simp only [Prod.mk.injEq, and_true] at hij
  obtain ⟨h1, h2⟩ := hij
  have hm : ((i % 11 : ℕ) : ℚ) = ((j % 11 : ℕ) : ℚ) := by linarith
  have hd : ((i / 11 : ℕ) : ℚ) = ((j / 11 : ℕ) : ℚ) := by linarith
  have hm2 : i % 11 = j % 11 := Nat.cast_injective hm
  have hd2 : i / 11 = j / 11 := Nat.cast_injective hd
  omega

/-- C9: the matrix submitted for a rendered cell (row `yy`, column `xx`, both at
most 10) has translation entries `mtx[12] = -15 + 3*xx`, `mtx[13] = -15 + 3*yy`,
`mtx[14] = 0`, whatever the frame input (time, rotation) and the state; two
rendered cells that differ never receive the same position.  On the renderer
calls of a non-terminated `update`: the matrices handed to `bgfx::setTransform`,
which are the matrices in effect at the successive `bgfx::submit` calls, are
those of the render loop's cells in order, the `i`-th one (linear index `i`,
row `i / 11`, column `i % 11`) carrying the translation
`(-15 + 3*(i % 11), -15 + 3*(i / 11), 0)`, and these translations are pairwise
distinct. -/
theorem grid_placement :
    (∀ (s : Cubes) (f : FrameInput) (yy xx : Nat),
        (drawCell s f yy xx).mtx 12 = -15 + 3 * (xx : ℚ) ∧
        (drawCell s f yy xx).mtx 13 = -15 + 3 * (yy : ℚ) ∧
        (drawCell s f yy xx).mtx 14 = 0) ∧
    (∀ (s : Cubes) (f : FrameInput) (d : Draw), d ∈ renderLoop s f →
        d.yy ≤ 10 ∧ d.xx ≤ 10 ∧
        d.mtx 12 = -15 + 3 * (d.xx : ℚ) ∧ d.mtx 13 = -15 + 3 * (d.yy : ℚ) ∧ d.mtx 14 = 0) ∧
    (∀ (s : Cubes) (f : FrameInput) (d e : Draw), d ∈ renderLoop s f → e ∈ renderLoop s f →
        (d.yy, d.xx) ≠ (e.yy, e.xx) →
        (d.mtx 12, d.mtx 13, d.mtx 14) ≠ (e.mtx 12, e.mtx 13, e.mtx 14)) ∧
    (∀ (s : Cubes) (f : FrameInput), f.exit = false →
        transformsSet (update s f).calls = (renderLoop (update s f).state f).map Draw.mtx ∧
        submittedWith none (update s f).calls
          = (transformsSet (update s f).calls).map some ∧
        (transformsSet (update s f).calls).map (fun m => (m 12, m 13, m 14))
          = (List.range (min (update s f).state.m_objCnt 121)).map
              (fun i => (-15 + 3 * ((i % 11 : ℕ) : ℚ), -15 + 3 * ((i / 11 : ℕ) : ℚ),
                (0 : ℚ))) ∧
        ((transformsSet (update s f).calls).map (fun m => (m 12, m 13, m 14))).Nodup) := by
  have hcell := drawCell_translation
  have hmem : ∀ (s : Cubes) (f : FrameInput) (d : Draw), d ∈ renderLoop s f →
      d.yy ≤ 10 ∧ d.xx ≤ 10 ∧
      d.mtx 12 = -15 + 3 * (d.xx : ℚ) ∧ d.mtx 13 = -15 + 3 * (d.yy : ℚ) ∧ d.mtx 14 = 0 := by
    intro s f d hd
    obtain ⟨i, _, hi, rfl⟩ := mem_renderLoop s f d hd
    have h := hcell s f (i / 11) (i % 11)
    refine ⟨?_, ?_, h.1, h.2.1, h.2.2⟩
    · show i / 11 ≤ 10
      omega
    · show i % 11 ≤ 10
      omega
  refine ⟨hcell, hmem, ?_, ?_⟩
  · intro s f d e hd he hne heq
    obtain ⟨_, _, hd12, hd13, _⟩ := hmem s f d hd
    obtain ⟨_, _, he12, he13, _⟩ := hmem s f e he
    simp only [Prod.mk.injEq] at heq
    obtain ⟨h12, h13, _⟩ := heq
    rw [hd12, he12] at h12
    rw [hd13, he13] at h13
    have hx : (d.xx : ℚ) = (e.xx : ℚ) := by linarith
    have hy : (d.yy : ℚ) = (e.yy : ℚ) := by linarith
    apply hne
    rw [Nat.cast_injective hx, Nat.cast_injective hy]
  · intro s f he
    have ht := update_transformsSet s f he
    have hpos : (transformsSet (update s f).calls).map (fun m => (m 12, m 13, m 14))
        = (List.range (min (update s f).state.m_objCnt 121)).map
            (fun i => (-15 + 3 * ((i % 11 : ℕ) : ℚ), -15 + 3 * ((i / 11 : ℕ) : ℚ),
              (0 : ℚ))) := by
      rw [ht, List.map_map, ← renderLoop_positions]
      rfl
    refine ⟨ht, ?_, hpos, ?_⟩
    · rw [update_submittedWith s f he, ht, List.map_map]
      rfl
    · rw [hpos]
      exact (List.nodup_range _).map cell_position_injective

/-- Witness of C9: one object present, a frame at 5 s spawns the second; the two
matrices handed to the renderer carry (-15, -15, 0) and (-12, -15, 0). -/
theorem grid_placement_witness :
    (frameAt 5 20 30).exit = false ∧
    (transformsSet (update (stateWith 1) (frameAt 5 20 30)).calls).map
        (fun m => (m 12, m 13, m 14))
      = [(-15, -15, 0), (-12, -15, 0)] := by
  have h := (grid_placement.2.2.2 (stateWith 1) (frameAt 5 20 30) rfl).2.2.1
  have hc : (update (stateWith 1) (frameAt 5 20 30)).state.m_objCnt = 2 := by
    rw [update_objCnt]
    norm_num [stateWith, frameAt]
  refine ⟨rfl, ?_⟩
  rw [h, hc]
  simp [List.range_succ]
  norm_num

theorem innerLoopContinue_eq_filter (s : Cubes) (f : FrameInput) (yy : Nat) (xs : List Nat) :
    innerLoopContinue s f yy xs
      = (xs.filter (fun xx => decide (xx < s.m_objCnt - yy * 11))).map (drawCell s f yy) := by
  induction xs with
  | nil => simp [innerLoopContinue]
  | cons xx rest ih =>
    by_cases h : yy * 11 + xx ≥ s.m_objCnt
    · have h2 : ¬ xx < s.m_objCnt - yy * 11 := by omega
      simp [innerLoopContinue, h, h2, ih]
    · have h2 : xx < s.m_objCnt - yy * 11 := by omega
      simp [innerLoopContinue, h, h2, ih]

theorem innerLoopStop_fst (s : Cubes) (f : FrameInput) (yy : Nat) (xs : List Nat) :
    (innerLoopStop s f yy xs).1 = innerLoop s f yy xs := by
  induction xs with
  | nil => simp [innerLoopStop, innerLoop]
  | cons xx rest ih =>
    by_cases h : yy * 11 + xx ≥ s.m_objCnt
    · simp [innerLoopStop, innerLoop, h]
    · simp [innerLoopStop, innerLoop, h, ih]

theorem innerLoopStop_snd (s : Cubes) (f : FrameInput) (yy : Nat) (xs : List Nat)
    (h : (innerLoopStop s f yy xs).2 = true) : ∃ xx ∈ xs, yy * 11 + xx ≥ s.m_objCnt := by
  induction xs with
  | nil => simp [innerLoopStop] at h
  | cons xx rest ih =>
    by_cases hc : yy * 11 + xx ≥ s.m_objCnt
    · exact ⟨xx, List.mem_cons_self _ _, hc⟩
    · simp only [innerLoopStop, hc, if_false] at h
      obtain ⟨x, hx, hge⟩ := ih h
      exact ⟨x, List.mem_cons_of_mem _ hx, hge⟩

theorem rows_past_count (s : Cubes) (f : FrameInput) (n a : Nat) (h : s.m_objCnt ≤ a * 11) :
    (List.range' a n).flatMap (fun yy => innerLoop s f yy (List.range 11)) = [] := by
  induction n generalizing a with
  | zero => simp
  | succ n ih =>
    rw [List.range'_succ, List.flatMap_cons, ih (a + 1) (by omega), innerLoop_row]
    have h0 : min 11 (s.m_objCnt - a * 11) = 0 := by omega
    simp [h0]

theorem outerLoopStop_rows (s : Cubes) (f : FrameInput) (n a : Nat) :
    outerLoopStop s f (List.range' a n)
      = (List.range' a n).flatMap (fun yy => innerLoop s f yy (List.range 11)) := by
  induction n generalizing a with
  | zero => simp [outerLoopStop]
  | succ n ih =>
    rw [List.range'_succ, List.flatMap_cons]
    simp only [outerLoopStop, innerLoopStop_fst]
    by_cases hb : (innerLoopStop s f a (List.range 11)).2 = true
    · obtain ⟨xx, hx, hge⟩ := innerLoopStop_snd s f a _ hb
      have hx11 : xx < 11 := List.mem_range.mp hx
      rw [if_pos hb, rows_past_count s f n (a + 1) (by omega), List.append_nil]
    · rw [if_neg hb, ih (a + 1)]

/-- C10: for every state (any object count) the render loop as written, whose
`break` leaves the inner loop only, submits the same sequence of draws as the
variant with `continue` and as the variant that leaves both loops at the first
cell whose index is not below the count; the indices submitted are all of
`0 .. min count 121 - 1`, so no cell below the count is skipped. -/
theorem break_unobservable (s : Cubes) (f : FrameInput) :
    renderLoop s f = renderLoopContinue s f ∧
    renderLoop s f = renderLoopStop s f ∧
    (renderLoop s f).map Draw.currIdx = List.range (min s.m_objCnt 121) := by
  refine ⟨?_, ?_, renderLoop_currIdx s f⟩
  · unfold renderLoop renderLoopContinue
    congr 1
    funext yy
    rw [innerLoop_row, innerLoopContinue_eq_filter, filter_lt_range]
  · have hrows : List.range 11 = List.range' 0 11 := List.range_eq_range' 11
    have h := outerLoopStop_rows s f 11 0
    rw [← hrows] at h
    exact h.symm

/-! ### Claims on `shutdown` -/

theorem range_map_getElem? (l : List Handle) :
    (List.range l.length).map (fun i => l[i]?) = l.map some := by
  apply List.ext_getElem
  · simp
  · intro i h1 h2
    simp only [List.length_map, List.length_range] at h1
    simp [List.getElem?_eq_getElem h1]

theorem destroy_loop_index (a b : Nat → Option Handle) (xs : List Nat) :
    destroyedIndex (xs.flatMap (fun i => [Call.destroyIndex (a i), Call.destroyVertex (b i)]))
      = xs.map a := by
  induction xs with
  | nil => simp [destroyedIndex]
  | cons x xs ih =>
    simp only [destroyedIndex] at ih
    simp [destroyedIndex, List.filterMap_append, ih]

theorem destroy_loop_vertex (a b : Nat → Option Handle) (xs : List Nat) :
    destroyedVertex (xs.flatMap (fun i => [Call.destroyIndex (a i), Call.destroyVertex (b i)]))
      = xs.map b := by
  induction xs with
  | nil => simp [destroyedVertex]
  | cons x xs ih =>
    simp only [destroyedVertex] at ih
    simp [destroyedVertex, List.filterMap_append, ih]

theorem shutdown_destroyed (s : Cubes) :
    destroyedIndex (shutdown s).calls
        = (List.range s.m_objCnt).map (fun i => s.m_dibhVtr[i]?) ∧
    destroyedVertex (shutdown s).calls
        = (List.range s.m_objCnt).map (fun i => s.m_dvbhVtr[i]?) := by
  have hi := destroy_loop_index (fun i => s.m_dibhVtr[i]?) (fun i => s.m_dvbhVtr[i]?)
    (List.range s.m_objCnt)
  have hv := destroy_loop_vertex (fun i => s.m_dibhVtr[i]?) (fun i => s.m_dvbhVtr[i]?)
    (List.range s.m_objCnt)
  simp only [destroyedIndex] at hi
  simp only [destroyedVertex] at hv
  constructor
  · simp only [shutdown, destroyedIndex, List.filterMap_append, hi]
    simp
  · simp only [shutdown, destroyedVertex, List.filterMap_append, hv]
    simp

theorem shutdown_destroyed_inv (s : Cubes) (h : Inv s) :
    destroyedIndex (shutdown s).calls = s.m_dibhVtr.map some ∧
    destroyedVertex (shutdown s).calls = s.m_dvbhVtr.map some := by
  obtain ⟨h1, h2⟩ := h
  have hd := shutdown_destroyed s
  rw [hd.1, hd.2]
  constructor
  · rw [← h2, range_map_getElem?]
  · rw [← h2, ← h1, range_map_getElem?]

theorem runUpdates_lists (s : Cubes) (fs : List FrameInput) :
    (runUpdates s fs).m_dibhVtr = s.m_dibhVtr ++ createdIndex (runCalls s fs) ∧
    (runUpdates s fs).m_dvbhVtr = s.m_dvbhVtr ++ createdVertex (runCalls s fs) := by
  induction fs generalizing s with
  | nil => simp [runUpdates, runCalls, createdIndex, createdVertex]
  | cons f fs ih =>
    have h := ih (update s f).state
    have hu := update_lists s f
    simp only [runUpdates, runCalls, createdIndex_append, createdVertex_append]
    rw [h.1, h.2, hu.1, hu.2, List.append_assoc, List.append_assoc]
    exact ⟨rfl, rfl⟩

theorem runUpdates_inv (s : Cubes) (fs : List FrameInput) (h : Inv s) :
    Inv (runUpdates s fs) := by
  induction fs generalizing s with
  | nil => exact h
  | cons f fs ih => exact ih _ (update_inv s f h)

/-- C7: `shutdown` returns 0.  In a state satisfying the handle-list invariant
with count `N` it issues `N` index-buffer destroys and `N` vertex-buffer
destroys, whose arguments are the entries of the two handle lists, in order.
In the state reached from a fresh object by `init` and any sequence of
`update` calls that spawned `N` objects, count and list lengths are `N` and the
destroyed handles are exactly the handles the `N` spawns were given, in spawn
order, each once: if the renderer handed out distinct handles, no handle is
destroyed twice. -/
theorem shutdown_release :
    (∀ s : Cubes, (shutdown s).ret = 0) ∧
    (∀ s : Cubes, Inv s → s.m_objCnt < 2 ^ 31 →
        destroyedIndex (shutdown s).calls = s.m_dibhVtr.map some ∧
        destroyedVertex (shutdown s).calls = s.m_dvbhVtr.map some ∧
        (destroyedIndex (shutdown s).calls).length = s.m_objCnt ∧
        (destroyedVertex (shutdown s).calls).length = s.m_objCnt) ∧
    (∀ (env : InitEnv) (s0 : Cubes) (fs : List FrameInput) (N : Nat), Fresh s0 →
        spawns (runCalls (init env s0).state fs) = N →
        (runUpdates (init env s0).state fs).m_objCnt = N ∧
        (runUpdates (init env s0).state fs).m_dibhVtr.length = N ∧
        (runUpdates (init env s0).state fs).m_dvbhVtr.length = N ∧
        (destroyedIndex (shutdown (runUpdates (init env s0).state fs)).calls).length = N ∧
        (destroyedVertex (shutdown (runUpdates (init env s0).state fs)).calls).length = N ∧
        destroyedIndex (shutdown (runUpdates (init env s0).state fs)).calls
          = (createdIndex (runCalls (init env s0).state fs)).map some ∧
        destroyedVertex (shutdown (runUpdates (init env s0).state fs)).calls
          = (createdVertex (runCalls (init env s0).state fs)).map some ∧
        ((createdIndex (runCalls (init env s0).state fs)).Nodup →
          (destroyedIndex (shutdown (runUpdates (init env s0).state fs)).calls).Nodup) ∧
        ((createdVertex (runCalls (init env s0).state fs)).Nodup →
          (destroyedVertex (shutdown (runUpdates (init env s0).state fs)).calls).Nodup)) := by
  refine ⟨fun _ => rfl, ?_, ?_⟩
  · intro s h _
    have hd := shutdown_destroyed_inv s h
    refine ⟨hd.1, hd.2, ?_, ?_⟩
    · rw [hd.1, List.length_map, h.2]
    · rw [hd.2, List.length_map, h.1, h.2]
  · intro env s0 fs N hf hN
    have hinv0 : Inv (init env s0).state := by simp [Inv, init, hf.1, hf.2]
    have hinv := runUpdates_inv _ fs hinv0
    have hl := runUpdates_lists (init env s0).state fs
    have hi0 : (init env s0).state.m_dibhVtr = [] := hf.2
    have hv0 : (init env s0).state.m_dvbhVtr = [] := hf.1
    rw [hi0, List.nil_append] at hl
    rw [hv0, List.nil_append] at hl
    have hd := shutdown_destroyed_inv _ hinv
    have hlenI : (runUpdates (init env s0).state fs).m_dibhVtr.length = N := by
      rw [hl.1]
      exact hN
    have hsome : Function.Injective (some : Handle → Option Handle) :=
      fun a b hab => Option.some.inj hab
    refine ⟨?_, hlenI, ?_, ?_, ?_, ?_, ?_, ?_, ?_⟩
    · rw [← hinv.2, hlenI]
    · rw [hinv.1, hlenI]
    · rw [hd.1, List.length_map, hlenI]
    · rw [hd.2, List.length_map, hinv.1, hlenI]
    · rw [hd.1, hl.1]
    · rw [hd.2, hl.2]
    · intro hnd
      rw [hd.1, hl.1]
      exact hnd.map hsome
    · intro hnd
      rw [hd.2, hl.2]
      exact hnd.map hsome

/-- Witness of C7: `init`, two spawning frames and a terminated one, then
`shutdown`: two index buffers and two vertex buffers are destroyed. -/
theorem shutdown_release_witness :
    Fresh fresh0 ∧
    spawns (runCalls (init env0 fresh0).state
      [frameAt 5 20 30, frameAt 6 21 31, exitFrame]) = 2 ∧
    (destroyedIndex (shutdown (runUpdates (init env0 fresh0).state
      [frameAt 5 20 30, frameAt 6 21 31, exitFrame])).calls).length = 2 ∧
    (destroyedVertex (shutdown (runUpdates (init env0 fresh0).state
      [frameAt 5 20 30, frameAt 6 21 31, exitFrame])).calls).length = 2 := by
  have hN : spawns (runCalls (init env0 fresh0).state
      [frameAt 5 20 30, frameAt 6 21 31, exitFrame]) = 2 := by
    simp only [spawns, runCalls, createdIndex_append, (update_created _ _).1, update_objCnt]
    norm_num [init, frameAt, exitFrame, createdIndex]
  have h := shutdown_release.2.2 env0 fresh0
    [frameAt 5 20 30, frameAt 6 21 31, exitFrame] 2 ⟨rfl, rfl⟩ hN
  exact ⟨⟨rfl, rfl⟩, hN, h.2.2.2.1, h.2.2.2.2.1⟩

end DynamicCube
